import Mathlib

/-!
Verification of the Coleta_Radar backend (Go) against its natural-language
specification.  The Go source is shallowly embedded: float64 values are
modelled as exact rationals (ℚ), wall-clock timestamps as integers
(milliseconds since epoch), Go strings as Lean strings, and the seven-entry
metric arrays as functions out of Fin 7.  Stateful code is modelled as
explicit state-passing step functions whose emitted side effects (broadcasts,
persistence, sleeps) are returned as data.
-/

namespace ColetaRadar

/-- Model of models.VelocityChange (backend/internal/models/radar.go): one
significant per-channel velocity delta. -/
structure VelocityChange where
  index : ℕ
  oldValue : ℚ
  newValue : ℚ
  changeValue : ℚ
  timestamp : ℤ
deriving DecidableEq, Repr

/-- Model of models.RadarMetrics: one decoded frame.  Positions and
velocities are the seven channels; float64 is modelled as ℚ. -/
structure RadarMetrics where
  positions : Fin 7 → ℚ
  velocities : Fin 7 → ℚ
  timestamp : ℤ
  status : String
  velocityChanges : List VelocityChange

/-- Model of models.RadarStatus, without the wall-clock timestamp field
(time.Now() has no counterpart in the embedding). -/
structure RadarStatus where
  status : String
  lastError : String
  errorCount : ℕ
deriving DecidableEq, Repr

/-- Value of a single hexadecimal digit, or none (decoder helper). -/
def hexDigitVal (c : Char) : Option ℕ :=
  if '0' ≤ c ∧ c ≤ '9' then some (c.toNat - 48)
  else if 'a' ≤ c ∧ c ≤ 'f' then some (c.toNat - 87)
  else if 'A' ≤ c ∧ c ≤ 'F' then some (c.toNat - 55)
  else none

/-- Value of a single decimal digit, or none. -/
def decDigitVal (c : Char) : Option ℕ :=
  if '0' ≤ c ∧ c ≤ '9' then some (c.toNat - 48) else none

/-- Accumulate digits of a base-`b` numeral; none if any character is not a
digit or the list is empty.  Mirrors the digit loop of Go strconv.ParseUint
with an explicit base (so no sign, no 0x, no underscores). -/
def parseDigits (digit : Char → Option ℕ) (b : ℕ) (cs : List Char) : Option ℕ :=
  match cs with
  | [] => none
  | _ => cs.foldlM (fun acc c => (digit c).map (fun d => b * acc + d)) 0

/-- Model of Go strconv.ParseUint(s, 16, 32): unsigned hexadecimal with a
32-bit range check; signs are rejected. -/
def parseUInt32Hex (s : String) : Option ℕ :=
  match parseDigits hexDigitVal 16 s.toList with
  | none => none
  | some n => if n ≤ 2 ^ 32 - 1 then some n else none

/-- Model of Go strconv.ParseInt(s, 16, 32): optional sign, hexadecimal
digits, 32-bit signed range check. -/
def parseInt32Hex (s : String) : Option ℤ :=
  let (neg, ds) :=
    match s.toList with
    | '-' :: rest => (true, rest)
    | '+' :: rest => (false, rest)
    | cs => (false, cs)
  match parseDigits hexDigitVal 16 ds with
  | none => none
  | some n =>
    let v : ℤ := if neg then -(n : ℤ) else (n : ℤ)
    if -(2 ^ 31) ≤ v ∧ v ≤ 2 ^ 31 - 1 then some v else none

/-- Model of Go strconv.Atoi = strconv.ParseInt(s, 10, 0) on a 64-bit
platform: optional sign, decimal digits, 64-bit signed range check. -/
def parseInt64Dec (s : String) : Option ℤ :=
  let (neg, ds) :=
    match s.toList with
    | '-' :: rest => (true, rest)
    | '+' :: rest => (false, rest)
    | cs => (false, cs)
  match parseDigits decDigitVal 10 ds with
  | none => none
  | some n =>
    let v : ℤ := if neg then -(n : ℤ) else (n : ℤ)
    if -(2 ^ 63) ≤ v ∧ v ≤ 2 ^ 63 - 1 then some v else none

/-- Exact rational value of an IEEE-754 single-precision bit pattern
(math.Float32frombits).  Finite patterns are decoded exactly; the non-finite
patterns (exponent field 255, infinities and NaNs) have no rational value and
are mapped to 0 — no claim in this development exercises them. -/
def float32BitsToRat (n : ℕ) : ℚ :=
  let sign : ℚ := if n / 2 ^ 31 % 2 = 1 then -1 else 1
  let e : ℕ := n / 2 ^ 23 % 2 ^ 8
  let f : ℕ := n % 2 ^ 23
  if e = 255 then 0
  else if e = 0 then sign * (f : ℚ) / ((2 ^ 149 : ℕ) : ℚ)
  else sign * (((2 ^ 23 + f) * 2 ^ e : ℕ) : ℚ) / ((2 ^ 150 : ℕ) : ℚ)

/-- Model of decoder.go hexStringToFloat32: parse as uint32 (0.0 on parse
error) and reinterpret the bits as an IEEE-754 single. -/
def hexStringToFloat32 (hexStr : String) : ℚ :=
  match parseUInt32Hex hexStr with
  | none => 0
  | some n => float32BitsToRat n

/-- Model of decoder.go smallHexToInt: strconv.ParseInt(hexStr, 16, 32),
returning 0 on any parse error. -/
def smallHexToInt (hexStr : String) : ℤ :=
  (parseInt32Hex hexStr).getD 0

/-- Declared value count of a block (decoder.go lines 86-95 / 138-147): the
token at offset +3 parsed as decimal, clamped above at 7, defaulting to 7
when it does not parse.  (A negative parsed count is kept: the value loop
then performs no iterations.) -/
def blockNumValues (tokens : List String) (idx : ℕ) : ℤ :=
  match parseInt64Dec (tokens.getD (idx + 3) "") with
  | none => 7
  | some n => if n > 7 then 7 else n

/-- Number of iterations of a block's value loop
(for i := 0; i < numValues && idx+i+4 < len(tokens); i++). -/
def blockIterCount (tokens : List String) (idx : ℕ) : ℕ :=
  min (blockNumValues tokens idx).toNat (tokens.length - (idx + 4))

/-- Decoded position value for value-token index `i` of the position block at
`posIdx`: smallHexToInt of the token, times the scale, divided by 1000
(decoder.go lines 100-114). -/
def posVal (tokens : List String) (posIdx : ℕ) (scale : ℚ) (i : ℕ) : ℚ :=
  ((smallHexToInt (tokens.getD (posIdx + i + 4) "") : ℚ) * scale) / 1000

/-- Two's-complement adjustment of decoder.go lines 159-161: a parsed value
greater than 32767 has 65536 subtracted. -/
def signAdjust (d : ℤ) : ℤ :=
  if d > 32767 then d - 65536 else d

/-- Decoded velocity value for value-token index `i` of the velocity block at
`velIdx`: sign-adjusted smallHexToInt times the scale, with no division by
1000 (decoder.go lines 152-171). -/
def velVal (tokens : List String) (velIdx : ℕ) (scale : ℚ) (i : ℕ) : ℚ :=
  (signAdjust (smallHexToInt (tokens.getD (velIdx + i + 4) "")) : ℚ) * scale

/-- Value loop shared by the two block processors: for each i below `cnt`,
write the decoded value `f i` into channel i (guarded by i < 7 as in the
source). -/
def writeChannels (f : ℕ → ℚ) (cnt : ℕ) (v : Fin 7 → ℚ) : Fin 7 → ℚ :=
  (List.range cnt).foldl
    (fun p i => if h : i < 7 then Function.update p ⟨i, h⟩ (f i) else p) v

/-- Value loop of processPositionBlock (decoder.go lines 100-114). -/
def writePositions (tokens : List String) (posIdx : ℕ) (scale : ℚ) (cnt : ℕ)
    (pos : Fin 7 → ℚ) : Fin 7 → ℚ :=
  writeChannels (posVal tokens posIdx scale) cnt pos

/-- Value loop of processVelocityBlock (decoder.go lines 152-171). -/
def writeVelocities (tokens : List String) (velIdx : ℕ) (scale : ℚ) (cnt : ℕ)
    (vel : Fin 7 → ℚ) : Fin 7 → ℚ :=
  writeChannels (velVal tokens velIdx scale) cnt vel

/-- Model of decoder.go processPositionBlock: locate the P3DX1 token, read
the scale and declared count, and fill position channels.  When the block is
missing or truncated the metrics are returned unchanged (the Go function
returns an error that decodeASCII merely logs). -/
def processPositionBlock (tokens : List String) (metrics : RadarMetrics) : RadarMetrics :=
  match List.findIdx? (fun t => t = "P3DX1") tokens with
  | none => metrics
  | some posIdx =>
    if posIdx + 3 ≥ tokens.length then metrics
    else
      let scale := hexStringToFloat32 (tokens.getD (posIdx + 1) "")
      let cnt := blockIterCount tokens posIdx
      { metrics with positions := writePositions tokens posIdx scale cnt metrics.positions }

/-- Model of decoder.go processVelocityBlock: locate the V3DX1 token, read
the scale and declared count, and fill velocity channels. -/
def processVelocityBlock (tokens : List String) (metrics : RadarMetrics) : RadarMetrics :=
  match List.findIdx? (fun t => t = "V3DX1") tokens with
  | none => metrics
  | some velIdx =>
    if velIdx + 3 ≥ tokens.length then metrics
    else
      let scale := hexStringToFloat32 (tokens.getD (velIdx + 1) "")
      let cnt := blockIterCount tokens velIdx
      { metrics with velocities := writeVelocities tokens velIdx scale cnt metrics.velocities }

/-- Control-character cleaning of decodeASCII: any character outside
0x20..0x7E becomes a space. -/
def cleanChar (c : Char) : Char :=
  if c.toNat < 32 ∨ c.toNat > 126 then ' ' else c

/-- Whitespace splitting (strings.Fields).  After cleaning, space is the only
whitespace character in the string, so fields are the maximal space-free
runs. -/
def fieldsGo (cs : List Char) (cur : List Char) (acc : List String) : List String :=
  match cs with
  | [] => if cur = [] then acc else acc ++ [String.mk cur.reverse]
  | c :: rest =>
    if c = ' ' then fieldsGo rest [] (if cur = [] then acc else acc ++ [String.mk cur.reverse])
    else fieldsGo rest (c :: cur) acc

/-- Token stream of a raw radar reply: clean control characters, then split
into whitespace-separated fields. -/
def tokenize (response : String) : List String :=
  fieldsGo (response.toList.map cleanChar) [] []

/-- Model of decoder.go decodeASCII: the empty reply is an error; otherwise
the position and velocity blocks are processed over the token stream and the
(possibly partially filled) metrics are returned. -/
def decodeASCII (response : String) (metrics : RadarMetrics) : Except String RadarMetrics :=
  if response.length = 0 then Except.error "resposta vazia do radar"
  else
    let tokens := tokenize response
    Except.ok (processVelocityBlock tokens (processPositionBlock tokens metrics))

/-- Fresh metrics value built by DecodeValues before decoding: all channels
zero, status "ok", the frame timestamped at receipt. -/
def initMetrics (ts : ℤ) : RadarMetrics :=
  { positions := fun _ => 0
    velocities := fun _ => 0
    timestamp := ts
    status := "ok"
    velocityChanges := [] }

/-- Model of RadarClient.DecodeValues under the default "ascii" protocol:
initialize a fresh frame and run decodeASCII on the reply. -/
def DecodeValues (ts : ℤ) (response : String) : Except String RadarMetrics :=
  decodeASCII response (initMetrics ts)

/-- Threshold of Service.detectVelocityChanges (decoder.go line 500):
minVelocityChange = 0.01. -/
def minVelocityChange : ℚ := 1 / 100

/-- Change event appended for channel i (decoder.go lines 517-523). -/
def changeEvent (lastVelocities : Fin 7 → ℚ) (metrics : RadarMetrics) (i : Fin 7) :
    VelocityChange :=
  { index := i.val
    oldValue := lastVelocities i
    newValue := metrics.velocities i
    changeValue := metrics.velocities i - lastVelocities i
    timestamp := metrics.timestamp }

/-- Model of Service.detectVelocityChanges (decoder.go lines 498-536): scan
the seven channels in order, emit an event where the delta reaches the
threshold, and replace the stored last velocities by the frame's velocities.
Returns the frame with its velocityChanges list filled, and the new
lastVelocities state. -/
def detectVelocityChanges (lastVelocities : Fin 7 → ℚ) (metrics : RadarMetrics) :
    RadarMetrics × (Fin 7 → ℚ) :=
  let changes : List VelocityChange :=
    (List.finRange 7).filterMap (fun i =>
      if minVelocityChange ≤ |metrics.velocities i - lastVelocities i| then
        some (changeEvent lastVelocities metrics i)
      else none)
  ({ metrics with velocityChanges := changes }, metrics.velocities)

/-- Default RadarConfig.MaxConsecutiveErrors (config/defaults.go line 19). -/
def maxConsecutiveErrors : ℕ := 5

/-- Acquisition-loop state relevant to error handling: the consecutive-error
counter, the last error string, and the current status record. -/
structure ServiceState where
  consecutiveErrors : ℕ
  lastErrorMsg : String
  status : RadarStatus
deriving DecidableEq, Repr

/-- Observable side effects of the comm phase of a tick: a status publication
(updateStatus broadcasts to the hub and persists to the store) and the
reconnect-delay sleep. -/
inductive TickEffect
  | statusPublished (st : RadarStatus)
  | slept
deriving DecidableEq, Repr

/-- Model of Service.updateStatus (decoder.go lines 559-586): build the new
status record from the current consecutive-error counter, store it, persist
and broadcast it. -/
def updateStatus (status errorMsg : String) (st : ServiceState) : ServiceState × TickEffect :=
  let newStatus : RadarStatus :=
    { status := status, lastError := errorMsg, errorCount := st.consecutiveErrors }
  ({ st with status := newStatus }, TickEffect.statusPublished newStatus)

/-- Model of Service.handleConnectionError (decoder.go lines 539-556):
increment the counter, record the error string, and when the counter exceeds
MaxConsecutiveErrors publish status "falha_comunicacao" and sleep for the
reconnect delay. -/
def handleConnectionError (errMsg : String) (st : ServiceState) :
    ServiceState × List TickEffect :=
  let st1 := { st with consecutiveErrors := st.consecutiveErrors + 1, lastErrorMsg := errMsg }
  if st1.consecutiveErrors > maxConsecutiveErrors then
    let r := updateStatus "falha_comunicacao" st1.lastErrorMsg st1
    (r.1, [r.2, TickEffect.slept])
  else (st1, [])

/-- Successful-read branch of Service.processTick (decoder.go lines 414-419):
when prior failures exist, reset the counter to zero and publish status
"ok". -/
def tickCommSuccess (st : ServiceState) : ServiceState × List TickEffect :=
  if st.consecutiveErrors > 0 then
    let st1 := { st with consecutiveErrors := 0 }
    let r := updateStatus "ok" "" st1
    (r.1, [r.2])
  else (st, [])

/-- Outcome of the radar command of one tick. -/
inductive TickOutcome
  | commOk
  | commFail (errMsg : String)
deriving DecidableEq, Repr

/-- Comm phase of one tick: dispatch on the command outcome. -/
def commPhase : TickOutcome → ServiceState → ServiceState × List TickEffect
  | TickOutcome.commOk, st => tickCommSuccess st
  | TickOutcome.commFail e, st => handleConnectionError e st

/-- Comm phases of a sequence of ticks, accumulating the emitted effects. -/
def runCommPhases (outs : List TickOutcome) (st : ServiceState) :
    ServiceState × List TickEffect :=
  outs.foldl
    (fun p o =>
      let r := commPhase o p.1
      (r.1, p.2 ++ r.2))
    (st, [])

/-- Side effects of the decoded-frame phase of a tick (processTick lines
428-461): the frame handed to the hub's BroadcastMetrics, the change batch
handed to BroadcastVelocityChanges (empty list means no call), and any
status-record publications (updateStatus calls) made by this phase. -/
structure TickOutput where
  statusBroadcasts : List RadarStatus
  metricsBroadcast : Option RadarMetrics
  velocityChangesBroadcast : List VelocityChange

/-- Model of the decoded-frame phase of Service.processTick (decoder.go lines
428-461): when all seven positions are zero the frame's status is overridden
to "obstruido" (with a log warning only); change detection runs; the frame
goes to BroadcastMetrics and, when changes exist, to
BroadcastVelocityChanges.  No updateStatus call is made in this phase, so
statusBroadcasts is empty and the service status record is untouched. -/
def processDecodedFrame (lastVelocities : Fin 7 → ℚ) (metrics : RadarMetrics) :
    (Fin 7 → ℚ) × RadarMetrics × TickOutput :=
  let metrics1 :=
    if ∀ i : Fin 7, metrics.positions i = 0 then { metrics with status := "obstruido" }
    else metrics
  let r := detectVelocityChanges lastVelocities metrics1
  (r.2, r.1,
    { statusBroadcasts := []
      metricsBroadcast := some r.1
      velocityChangesBroadcast := r.1.velocityChanges })

/-!
Redis sorted sets.  A sorted set is modelled as an association list from
members to integer scores (millisecond timestamps); members are unique, as in
Redis.  ZAdd of an existing member updates its score in place.
ZRemRangeByRank(0, -(H+1)) ranks the set ascending by score and removes all
but the H highest-ranked entries.  Redis breaks equal-score ties by the
lexicographic order of the serialized member; the model uses a stable sort
and no theorem below depends on the order among equal scores.
-/

/-- Sorted set: association list of (member, score), members unique. -/
abbrev ZSet (α : Type) := List (α × ℤ)

/-- Model of ZAdd with one (member, score) pair: update the score when the
member is present, append otherwise. -/
def zadd [DecidableEq α] (m : α) (sc : ℤ) (z : ZSet α) : ZSet α :=
  if z.any (fun p => p.1 = m) then z.map (fun p => if p.1 = m then (m, sc) else p)
  else z ++ [(m, sc)]

/-- Entries ranked ascending by score (stable insertion sort). -/
def zranked (z : ZSet α) : ZSet α :=
  List.insertionSort (fun a b => a.2 ≤ b.2) z

/-- Model of ZRemRangeByRank(key, 0, -(keep+1)): drop all but the `keep`
highest-scored entries. -/
def zremLowest (keep : ℕ) (z : ZSet α) : ZSet α :=
  (zranked z).drop (z.length - keep)

/-- Default history cap of WriteMetrics (service.go lines 135 and 153: ranks
0..-1001 removed, keeping the last 1000 points). -/
def historyCap : ℕ := 1000

/-- Service.maxVelocityHistorySize (service.go lines 40 and 65): cap of the
change indices. -/
def maxVelocityHistorySize : ℕ := 100

/-- Per-channel history write of WriteMetrics: ZAdd the value scored by the
frame timestamp, then trim to the 1000 highest-scored entries. -/
def writeHistory (value : ℚ) (ts : ℤ) (z : ZSet ℚ) : ZSet ℚ :=
  zremLowest historyCap (zadd value ts z)

/-- Store state touched by the history parts of WriteMetrics: the fourteen
per-channel history sorted sets. -/
structure StoreState where
  posHistory : Fin 7 → ZSet ℚ
  velHistory : Fin 7 → ZSet ℚ

/-- Model of redis.Service.WriteMetrics (service.go lines 104-166), history
part: for each of the seven position channels and seven velocity channels,
ZAdd the current value with the frame's millisecond timestamp as score and
trim the history to its 1000 highest-scored entries.  The scalar SETs of the
same pipeline carry no ring state and are not modelled. -/
def WriteMetrics (metrics : RadarMetrics) (st : StoreState) : StoreState :=
  { posHistory := fun i => writeHistory (metrics.positions i) metrics.timestamp (st.posHistory i)
    velHistory := fun i => writeHistory (metrics.velocities i) metrics.timestamp (st.velHistory i) }

/-- Member of a change index: the change key
prefix:velocity_change:(index+1):(ms timestamp), determined by the channel
number and the millisecond timestamp. -/
abbrev ChangeKey := ℕ × ℤ

/-- Store state touched by WriteVelocityChanges: the per-channel change
indices (keyed by channel number index+1) and the global change index. -/
structure ChangeStoreState where
  velChanges : ℕ → ZSet ChangeKey
  allChanges : ZSet ChangeKey

/-- One iteration of the WriteVelocityChanges loop (service.go lines
179-228): ZAdd the change key to the channel's index and to the global index,
each scored by the change's millisecond timestamp, and trim both to the 100
highest-scored entries. -/
def writeOneChange (c : VelocityChange) (st : ChangeStoreState) : ChangeStoreState :=
  let key : ChangeKey := (c.index + 1, c.timestamp)
  { velChanges := Function.update st.velChanges (c.index + 1)
      (zremLowest maxVelocityHistorySize (zadd key c.timestamp (st.velChanges (c.index + 1))))
    allChanges := zremLowest maxVelocityHistorySize (zadd key c.timestamp st.allChanges) }

/-- Model of redis.Service.WriteVelocityChanges (service.go lines 169-250),
index part: an empty batch writes nothing; otherwise each change is written
in order. -/
def WriteVelocityChanges (changes : List VelocityChange) (st : ChangeStoreState) :
    ChangeStoreState :=
  if changes = [] then st else changes.foldl (fun s c => writeOneChange c s) st

/-!
WebSocket hub.
-/

/-- Hub state behind the metrics-coalescing rate limiter (hub.go lines
32-35): the frame seen by the previous BroadcastMetrics call and its wall
time.  Both fields are updated on every call, sent or suppressed. -/
structure HubMetricsState where
  lastMetrics : Option RadarMetrics
  lastMetricsTime : ℤ

/-- Outbound metrics message (hub.go lines 230-238). -/
structure MetricsMessage where
  positions : Fin 7 → ℚ
  velocities : Fin 7 → ℚ
  status : String

/-- Model of Hub.BroadcastMetrics (hub.go lines 191-246): suppress when the
previous call was under 50 ms ago and no channel's velocity moved by more
than 0.05 relative to the frame of that previous call; always overwrite
lastMetrics and lastMetricsTime; when not suppressed, enqueue a metrics
message carrying the frame's positions, velocities and status. -/
def BroadcastMetrics (now : ℤ) (metrics : RadarMetrics) (st : HubMetricsState) :
    HubMetricsState × Option MetricsMessage :=
  let shouldSend : Bool :=
    match st.lastMetrics with
    | none => true
    | some last =>
      if now - st.lastMetricsTime < 50 then
        decide (∃ i : Fin 7, (1 : ℚ) / 20 < |metrics.velocities i - last.velocities i|)
      else true
  ({ lastMetrics := some metrics, lastMetricsTime := now },
   if shouldSend then
     some { positions := metrics.positions, velocities := metrics.velocities,
            status := metrics.status }
   else none)

/-- Run a sequence of BroadcastMetrics calls, returning for each call its
wall time and whether a message was enqueued. -/
def runBroadcastMetrics (calls : List (ℤ × RadarMetrics)) :
    HubMetricsState × List (ℤ × Bool) :=
  calls.foldl
    (fun p c =>
      let r := BroadcastMetrics c.1 c.2 p.1
      (r.1, p.2 ++ [(c.1, r.2.isSome)]))
    ({ lastMetrics := none, lastMetricsTime := 0 }, [])

/-- Capacity of a subscriber's outbound channel (client.go line 29). -/
def sendBufferSize : ℕ := 256

/-- Registered subscriber: identifier and outbound queue (Client.send). -/
structure HubClient where
  id : ℕ
  send : List String
deriving DecidableEq, Repr

/-!
Inbound subscriber messages.
-/

/-- Decoded inbound command message (models.CommandMessage): its type tag and
an opaque request id.  Parameters are irrelevant to the routing claims. -/
structure CommandMessage where
  type : String
  id : String
deriving DecidableEq, Repr

/-- Message sent back to, or action taken for, one subscriber. -/
inductive ClientEffect
  | sentError (code : String) (message : String)
  | sentPong
  | forwardedToHub (command : String)
  | hubLoggedUnknown (command : String)
  | hubHandled (command : String)
deriving DecidableEq, Repr

/-- Model of Hub.handleClientCommand (hub.go lines 291-309): get_history,
get_status and ping are handled; any other command only logs a warning. -/
def handleClientCommand (command : String) : ClientEffect :=
  if command = "get_history" then ClientEffect.hubHandled command
  else if command = "get_status" then ClientEffect.hubHandled command
  else if command = "ping" then ClientEffect.hubHandled command
  else ClientEffect.hubLoggedUnknown command

/-- Model of Client.processIncomingMessage (client.go lines 140-171): a
message that fails to decode (none) gets an error reply with code
invalid_format; ping is answered with a pong; get_history and get_status are
forwarded to the hub; any other type is forwarded to the hub as-is. -/
def processIncomingMessage (msg : Option CommandMessage) : List ClientEffect :=
  match msg with
  | none => [ClientEffect.sentError "invalid_format" "Formato de mensagem inválido"]
  | some cmd =>
    if cmd.type = "ping" then [ClientEffect.sentPong]
    else if cmd.type = "get_history" then [ClientEffect.forwardedToHub "get_history"]
    else if cmd.type = "get_status" then [ClientEffect.forwardedToHub "get_status"]
    else [ClientEffect.forwardedToHub cmd.type]

/-- Full server-side handling of one inbound message: the client's own
processing, with forwarded commands expanded through the hub's handler. -/
def serverHandleInbound (msg : Option CommandMessage) : List ClientEffect :=
  (processIncomingMessage msg).flatMap (fun e =>
    match e with
    | ClientEffect.forwardedToHub c => [e, handleClientCommand c]
    | _ => [e])

/-- Well-formed reply fixture: position block with scale 1.0 and two values
(0x01F4 = 500, 0xFFF6 = 65526), velocity block with scale 1.0 and two values
(0x000A = 10, 0xFFF6 = 65526, sign-adjusted to -10). -/
def replyFixture : String :=
  "P3DX1 3F800000 0 2 01F4 FFF6 V3DX1 3F800000 0 2 000A FFF6"

/-- Reply fixture whose first position value token is not hexadecimal. -/
def malformedTokenFixture : String :=
  "P3DX1 3F800000 0 2 ZZZZ 01F4"

/-!
Derived views of the decoder, used to state the channel-filling claims: how
many value tokens of a block are actually written, and the value written at a
given channel.
-/

/-- Number of position channels written by the position block of a token
stream: zero when the block is missing or truncated, otherwise the value-loop
iteration count. -/
def posWriteCount (tokens : List String) : ℕ :=
  match List.findIdx? (fun t => t = "P3DX1") tokens with
  | none => 0
  | some p => if p + 3 ≥ tokens.length then 0 else blockIterCount tokens p

/-- Position value the decoder writes at channel j (meaningful when
j < posWriteCount tokens). -/
def posValAt (tokens : List String) (j : ℕ) : ℚ :=
  match List.findIdx? (fun t => t = "P3DX1") tokens with
  | none => 0
  | some p => posVal tokens p (hexStringToFloat32 (tokens.getD (p + 1) "")) j

/-- Number of velocity channels written by the velocity block. -/
def velWriteCount (tokens : List String) : ℕ :=
  match List.findIdx? (fun t => t = "V3DX1") tokens with
  | none => 0
  | some p => if p + 3 ≥ tokens.length then 0 else blockIterCount tokens p

/-- Velocity value the decoder writes at channel j (meaningful when
j < velWriteCount tokens). -/
def velValAt (tokens : List String) (j : ℕ) : ℚ :=
  match List.findIdx? (fun t => t = "V3DX1") tokens with
  | none => 0
  | some p => velVal tokens p (hexStringToFloat32 (tokens.getD (p + 1) "")) j

/-- Service state at startup (NewService, decoder.go lines 258-272). -/
def initService : ServiceState :=
  { consecutiveErrors := 0
    lastErrorMsg := ""
    status := { status := "initializing", lastError := "", errorCount := 0 } }

/-- Store state with all fourteen history rings empty. -/
def emptyStore : StoreState :=
  { posHistory := fun _ => [], velHistory := fun _ => [] }

/-- Sequence of WriteMetrics pipelines. -/
def runWriteMetrics (frames : List RadarMetrics) (st : StoreState) : StoreState :=
  frames.foldl (fun s f => WriteMetrics f s) st

/-- Abstract bounded ring fed by a sequence of (member, score) writes,
starting empty: each write is a ZAdd followed by a trim to the `H`
highest-scored entries — the shape of every ring write in service.go. -/
def ringRun [DecidableEq α] (H : ℕ) (ws : List (α × ℤ)) : ZSet α :=
  ws.foldl (fun z w => zremLowest H (zadd w.1 w.2 z)) []

/-- Frame with velocity v on channel 0 and everything else zero (fixture for
the coalescing analysis). -/
def velFrame (ts : ℤ) (v : ℚ) : RadarMetrics :=
  { positions := fun _ => 0
    velocities := fun i => if i.val = 0 then v else 0
    timestamp := ts
    status := "ok"
    velocityChanges := [] }

/-- Frame with position 1m on channel 0 and everything else zero (fixture for
the obstruction analysis). -/
def posFrame (ts : ℤ) : RadarMetrics :=
  { positions := fun i => if i.val = 0 then 1 else 0
    velocities := fun _ => 0
    timestamp := ts
    status := "ok"
    velocityChanges := [] }

/-!
Operational model of the hub goroutine around eviction (Hub.Run, hub.go lines
119-152).  Hub.Run is a single goroutine looping over a select that is the
ONLY receiver of the unbuffered channels h.register and h.unregister.  In the
broadcast case it first enqueues the message into every subscriber channel
with spare capacity (select/default, non-blocking) and collects the full ones
as dead, then executes, on its own goroutine, a blocking send
h.unregister <- client for each dead client.  Per Go semantics an unbuffered
send completes only when another goroutine is at a matching receive; the sole
receive of h.unregister is this goroutine's own select, which it cannot reach
while it is parked on the send.  The step function below therefore gives a
state whose control point is a pending unregister send no successor state:
the hub is permanently stuck and no later broadcast is ever delivered.
-/

/-- Control point of the Hub.Run goroutine. -/
inductive HubCtl
  | atSelect
  | sendingUnregister (pending : List HubClient)
deriving DecidableEq, Repr

/-- State of the hub goroutine: the registry (h.clients), the control point,
and the contents of the buffered h.broadcast channel. -/
structure HubRunState where
  registry : List HubClient
  ctl : HubCtl
  pendingBroadcasts : List String
deriving DecidableEq, Repr

/-- Enabled successor states of the hub goroutine.  atSelect with a pending
broadcast runs the broadcast case: subscribers with spare capacity get the
message, the full ones are collected as dead (they remain in the registry —
the delete only happens in the never-reached unregister case), and the
goroutine moves to the unregister sends if any client died.  A state parked
on a send to the self-received unbuffered h.unregister channel has no
successor. -/
def hubEnabledSteps (s : HubRunState) : List HubRunState :=
  match s.ctl with
  | HubCtl.sendingUnregister [] => [{ s with ctl := HubCtl.atSelect }]
  | HubCtl.sendingUnregister (_ :: _) => []
  | HubCtl.atSelect =>
    match s.pendingBroadcasts with
    | [] => []
    | msg :: rest =>
      let live := (s.registry.filter (fun c => c.send.length < sendBufferSize)).map
        (fun c => { c with send := c.send ++ [msg] })
      let dead := s.registry.filter (fun c => ¬ c.send.length < sendBufferSize)
      [{ registry := live ++ dead
         ctl := if dead = [] then HubCtl.atSelect else HubCtl.sendingUnregister dead
         pendingBroadcasts := rest }]

/-- Subscriber whose outbound channel is full (256 queued messages) and whose
transport never drains it. -/
def fullClient : HubClient :=
  { id := 1, send := List.replicate sendBufferSize "m" }

/-- Healthy subscriber with an empty outbound queue. -/
def freshClient : HubClient :=
  { id := 2, send := [] }

/-- Hub about to broadcast two messages to a full subscriber and a healthy
one. -/
def hubStart : HubRunState :=
  { registry := [fullClient, freshClient]
    ctl := HubCtl.atSelect
    pendingBroadcasts := ["a", "b"] }

/-- State the hub reaches after the first broadcast of hubStart: the healthy
subscriber got "a", the full subscriber became dead, and the goroutine is now
parked on the unregister send. -/
def hubStuck : HubRunState :=
  { registry := [{ freshClient with send := ["a"] }, fullClient]
    ctl := HubCtl.sendingUnregister [fullClient]
    pendingBroadcasts := ["b"] }

/-!
Theorems.
-/

theorem blockNumValues_toNat_le (tokens : List String) (idx : ℕ) :
    (blockNumValues tokens idx).toNat ≤ 7 := by
  unfold blockNumValues
  cases parseInt64Dec (tokens.getD (idx + 3) "") with
  | none => simp
  | some n =>
    by_cases h : n > 7
    · simp [h]
    · simp only [h, if_false, ite_false, if_neg]
      omega

theorem blockIterCount_le (tokens : List String) (idx : ℕ) :
    blockIterCount tokens idx ≤ 7 :=
  le_trans (min_le_left _ _) (blockNumValues_toNat_le tokens idx)

theorem writeChannels_apply (f : ℕ → ℚ) :
    ∀ cnt : ℕ, cnt ≤ 7 → ∀ (v : Fin 7 → ℚ) (i : Fin 7),
      writeChannels f cnt v i = if i.val < cnt then f i.val else v i := by
  intro cnt
  induction cnt with
  | zero =>
    intro _ v i
    simp [writeChannels]
  | succ n ih =>
    intro hcnt v i
    have hn7 : n < 7 := by omega
    have hstep : writeChannels f (n + 1) v =
        Function.update (writeChannels f n v) ⟨n, hn7⟩ (f n) := by
      unfold writeChannels
      rw [List.range_succ, List.foldl_append]
      simp [hn7]
    rw [hstep, Function.update_apply]
    by_cases hi : i = (⟨n, hn7⟩ : Fin 7)
    · subst hi
      simp
    · rw [if_neg hi, ih (by omega) v i]
      have hne : i.val ≠ n := fun h => hi (Fin.ext h)
      by_cases h2 : i.val < n
      · rw [if_pos h2, if_pos (by omega)]
      · rw [if_neg h2, if_neg (by omega)]

theorem processPositionBlock_positions (tokens : List String) (m : RadarMetrics) (i : Fin 7) :
    (processPositionBlock tokens m).positions i =
      if i.val < posWriteCount tokens then posValAt tokens i.val else m.positions i := by
  unfold processPositionBlock posWriteCount posValAt
  cases h : List.findIdx? (fun t => t = "P3DX1") tokens with
  | none => simp
  | some p =>
    by_cases hlen : p + 3 ≥ tokens.length
    · simp [hlen]
    · simp [hlen, writePositions, writeChannels_apply _ _ (blockIterCount_le tokens p)]

theorem processVelocityBlock_velocities (tokens : List String) (m : RadarMetrics) (i : Fin 7) :
    (processVelocityBlock tokens m).velocities i =
      if i.val < velWriteCount tokens then velValAt tokens i.val else m.velocities i := by
  unfold processVelocityBlock velWriteCount velValAt
  cases h : List.findIdx? (fun t => t = "V3DX1") tokens with
  | none => simp
  | some p =>
    by_cases hlen : p + 3 ≥ tokens.length
    · simp [hlen]
    · simp [hlen, writeVelocities, writeChannels_apply _ _ (blockIterCount_le tokens p)]

theorem processPositionBlock_velocities (tokens : List String) (m : RadarMetrics) :
    (processPositionBlock tokens m).velocities = m.velocities := by
  unfold processPositionBlock
  split
  · rfl
  · split
    · rfl
    · rfl

theorem processVelocityBlock_positions (tokens : List String) (m : RadarMetrics) :
    (processVelocityBlock tokens m).positions = m.positions := by
  unfold processVelocityBlock
  split
  · rfl
  · split
    · rfl
    · rfl

theorem decodeASCII_ok (s : String) (m : RadarMetrics) (hs : s.length ≠ 0) :
    decodeASCII s m =
      Except.ok (processVelocityBlock (tokenize s) (processPositionBlock (tokenize s) m)) := by
  unfold decodeASCII
  rw [if_neg hs]

theorem DecodeValues_length_ne_zero (ts : ℤ) (s : String) (m : RadarMetrics)
    (h : DecodeValues ts s = Except.ok m) : s.length ≠ 0 := by
  intro h0
  rw [DecodeValues, decodeASCII, if_pos h0] at h
  exact Except.noConfusion h

theorem DecodeValues_positions (ts : ℤ) (s : String) (m : RadarMetrics)
    (h : DecodeValues ts s = Except.ok m) (i : Fin 7) :
    m.positions i =
      if i.val < posWriteCount (tokenize s) then posValAt (tokenize s) i.val else 0 := by
  have hs := DecodeValues_length_ne_zero ts s m h
  rw [DecodeValues, decodeASCII_ok s _ hs] at h
  injection h with h2
  rw [← h2, processVelocityBlock_positions, processPositionBlock_positions]
  simp [initMetrics]

theorem DecodeValues_velocities (ts : ℤ) (s : String) (m : RadarMetrics)
    (h : DecodeValues ts s = Except.ok m) (i : Fin 7) :
    m.velocities i =
      if i.val < velWriteCount (tokenize s) then velValAt (tokenize s) i.val else 0 := by
  have hs := DecodeValues_length_ne_zero ts s m h
  rw [DecodeValues, decodeASCII_ok s _ hs] at h
  injection h with h2
  rw [← h2, processVelocityBlock_velocities, processPositionBlock_velocities]
  simp [initMetrics]

/-- C1: detectVelocityChanges emits a change event for channel i if and only
if the absolute velocity delta against the stored last velocities reaches the
0.01 threshold; every emitted event carries the channel index, the old value,
the new value, the signed delta and the frame's timestamp; and the stored
last velocities afterwards equal the frame's velocities on all seven
channels. -/
theorem detectVelocityChanges_spec (last : Fin 7 → ℚ) (m : RadarMetrics) :
    (∀ i : Fin 7,
      changeEvent last m i ∈ (detectVelocityChanges last m).1.velocityChanges ↔
        minVelocityChange ≤ |m.velocities i - last i|) ∧
    (∀ c ∈ (detectVelocityChanges last m).1.velocityChanges,
      ∃ i : Fin 7, c.index = i.val ∧ c.oldValue = last i ∧ c.newValue = m.velocities i ∧
        c.changeValue = m.velocities i - last i ∧ c.timestamp = m.timestamp ∧
        minVelocityChange ≤ |m.velocities i - last i|) ∧
    (detectVelocityChanges last m).2 = m.velocities := by
  refine ⟨?_, ?_, rfl⟩
  · intro i
    constructor
    · intro hmem
      simp only [detectVelocityChanges, List.mem_filterMap] at hmem
      obtain ⟨j, _, hfj⟩ := hmem
      by_cases hc : minVelocityChange ≤ |m.velocities j - last j|
      · rw [if_pos hc] at hfj
        injection hfj with he
        have hidx : j.val = i.val := by
          have := congrArg VelocityChange.index he
          simpa [changeEvent] using this
        have : j = i := Fin.ext hidx
        subst this
        exact hc
      · rw [if_neg hc] at hfj
        exact Option.noConfusion hfj
    · intro hc
      simp only [detectVelocityChanges, List.mem_filterMap]
      exact ⟨i, List.mem_finRange i, by rw [if_pos hc]⟩
  · intro c hmem
    simp only [detectVelocityChanges, List.mem_filterMap] at hmem
    obtain ⟨j, _, hfj⟩ := hmem
    by_cases hc : minVelocityChange ≤ |m.velocities j - last j|
    · rw [if_pos hc] at hfj
      injection hfj with he
      refine ⟨j, ?_, ?_, ?_, ?_, ?_, hc⟩ <;> rw [← he] <;> rfl
    · rw [if_neg hc] at hfj
      exact Option.noConfusion hfj

theorem length_ne_zero_of_ne_empty (s : String) (hs : s ≠ "") : s.length ≠ 0 := by
  intro h0
  apply hs
  cases s with
  | mk data =>
    cases data with
    | nil => rfl
    | cons c cs => simp [String.length] at h0

/-- C2: whenever the token stream holds a P3DX1 (resp. V3DX1) block with its
scale token and count token, every decoded channel i below the iteration
count receives raw_i × scale / 1000 for positions, and sign-adjusted
raw_i × scale (no division by 1000) for velocities, where a raw value greater
than 32767 has 65536 subtracted. -/
theorem decode_block_values (ts : ℤ) (s : String) (m : RadarMetrics)
    (h : DecodeValues ts s = Except.ok m) :
    (∀ p : ℕ, List.findIdx? (fun t => t = "P3DX1") (tokenize s) = some p →
      p + 3 < (tokenize s).length →
      ∀ i : Fin 7, i.val < blockIterCount (tokenize s) p →
        m.positions i =
          ((smallHexToInt ((tokenize s).getD (p + i.val + 4) "") : ℚ) *
            hexStringToFloat32 ((tokenize s).getD (p + 1) "")) / 1000) ∧
    (∀ p : ℕ, List.findIdx? (fun t => t = "V3DX1") (tokenize s) = some p →
      p + 3 < (tokenize s).length →
      ∀ i : Fin 7, i.val < blockIterCount (tokenize s) p →
        m.velocities i =
          (((if smallHexToInt ((tokenize s).getD (p + i.val + 4) "") > 32767 then
              smallHexToInt ((tokenize s).getD (p + i.val + 4) "") - 65536
            else smallHexToInt ((tokenize s).getD (p + i.val + 4) "")) : ℤ) : ℚ) *
            hexStringToFloat32 ((tokenize s).getD (p + 1) "")) := by
  constructor
  · intro p hp hlen i hi
    rw [DecodeValues_positions ts s m h i]
    have hcount : posWriteCount (tokenize s) = blockIterCount (tokenize s) p := by
      simp only [posWriteCount, hp]
      rw [if_neg (by omega)]
    have hval : posValAt (tokenize s) i.val =
        posVal (tokenize s) p (hexStringToFloat32 ((tokenize s).getD (p + 1) "")) i.val := by
      simp only [posValAt, hp]
    rw [hcount, if_pos hi, hval]
    rfl
  · intro p hp hlen i hi
    rw [DecodeValues_velocities ts s m h i]
    have hcount : velWriteCount (tokenize s) = blockIterCount (tokenize s) p := by
      simp only [velWriteCount, hp]
      rw [if_neg (by omega)]
    have hval : velValAt (tokenize s) i.val =
        velVal (tokenize s) p (hexStringToFloat32 ((tokenize s).getD (p + 1) "")) i.val := by
      simp only [velValAt, hp]
    rw [hcount, if_pos hi, hval]
    unfold velVal signAdjust
    rfl

theorem decode_block_values_witness :
    ∃ m, DecodeValues 0 replyFixture = Except.ok m ∧
      m.positions ⟨0, by decide⟩ = 1 / 2 ∧ m.velocities ⟨1, by decide⟩ = -10 := by
  obtain ⟨m, hm⟩ : ∃ m, DecodeValues 0 replyFixture = Except.ok m := ⟨_, rfl⟩
  have hth := decode_block_values 0 replyFixture m hm
  refine ⟨m, hm, ?_, ?_⟩
  · have h1 := hth.1 0 (by with_unfolding_all decide) (by with_unfolding_all decide)
      ⟨0, by decide⟩ (by with_unfolding_all decide)
    rw [h1]
    with_unfolding_all decide
  · have h2 := hth.2 6 (by with_unfolding_all decide) (by with_unfolding_all decide)
      ⟨1, by decide⟩ (by with_unfolding_all decide)
    rw [h2]
    with_unfolding_all decide

/-- C3 counterexample: on the empty input string, DecodeValues fails with an
error instead of returning a metrics frame. -/
theorem DecodeValues_empty_error :
    DecodeValues 0 "" = Except.error "resposta vazia do radar" := rfl

/-- C3 (amended): for every NON-empty input byte string the decoder returns a
metrics frame without failing (the empty string alone is rejected with an
error), and every channel for which no value token was present in the input
is exactly zero. -/
theorem DecodeValues_total_nonempty (ts : ℤ) (s : String) (hs : s ≠ "") :
    ∃ m, DecodeValues ts s = Except.ok m ∧
      (∀ i : Fin 7, ¬ i.val < posWriteCount (tokenize s) → m.positions i = 0) ∧
      (∀ i : Fin 7, ¬ i.val < velWriteCount (tokenize s) → m.velocities i = 0) := by
  have hlen := length_ne_zero_of_ne_empty s hs
  have hok : DecodeValues ts s = Except.ok
      (processVelocityBlock (tokenize s) (processPositionBlock (tokenize s) (initMetrics ts))) :=
    decodeASCII_ok s (initMetrics ts) hlen
  refine ⟨_, hok, ?_, ?_⟩
  · intro i hi
    rw [DecodeValues_positions ts s _ hok i, if_neg hi]
  · intro i hi
    rw [DecodeValues_velocities ts s _ hok i, if_neg hi]

theorem DecodeValues_total_nonempty_witness :
    ("P3DX1" : String) ≠ "" ∧
      ∃ m, DecodeValues 0 "P3DX1" = Except.ok m ∧
        (∀ i : Fin 7, ¬ i.val < posWriteCount (tokenize "P3DX1") → m.positions i = 0) ∧
        (∀ i : Fin 7, ¬ i.val < velWriteCount (tokenize "P3DX1") → m.velocities i = 0) :=
  ⟨by decide, DecodeValues_total_nonempty 0 "P3DX1" (by decide)⟩

/-- C10: a value token that fails 32-bit hexadecimal parsing makes
smallHexToInt return 0, so the corresponding channel decodes to exactly zero
(0 × scale), and every other in-range channel of the block is still decoded
from its own token — a malformed value token aborts neither the block nor the
frame. -/
theorem malformed_value_token_zero (ts : ℤ) (s : String) (m : RadarMetrics)
    (h : DecodeValues ts s = Except.ok m) :
    (∀ tok : String, parseInt32Hex tok = none → smallHexToInt tok = 0) ∧
    (∀ p : ℕ, List.findIdx? (fun t => t = "P3DX1") (tokenize s) = some p →
      p + 3 < (tokenize s).length →
      ∀ i : Fin 7, i.val < blockIterCount (tokenize s) p →
        (parseInt32Hex ((tokenize s).getD (p + i.val + 4) "") = none → m.positions i = 0) ∧
        m.positions i = posVal (tokenize s) p
          (hexStringToFloat32 ((tokenize s).getD (p + 1) "")) i.val) ∧
    (∀ p : ℕ, List.findIdx? (fun t => t = "V3DX1") (tokenize s) = some p →
      p + 3 < (tokenize s).length →
      ∀ i : Fin 7, i.val < blockIterCount (tokenize s) p →
        (parseInt32Hex ((tokenize s).getD (p + i.val + 4) "") = none → m.velocities i = 0) ∧
        m.velocities i = velVal (tokenize s) p
          (hexStringToFloat32 ((tokenize s).getD (p + 1) "")) i.val) := by
  refine ⟨?_, ?_, ?_⟩
  · intro tok htok
    unfold smallHexToInt
    rw [htok]
    rfl
  · intro p hp hlen i hi
    have hcount : posWriteCount (tokenize s) = blockIterCount (tokenize s) p := by
      simp only [posWriteCount, hp]
      rw [if_neg (by omega)]
    have hval : posValAt (tokenize s) i.val =
        posVal (tokenize s) p (hexStringToFloat32 ((tokenize s).getD (p + 1) "")) i.val := by
      simp only [posValAt, hp]
    have hformula : m.positions i = posVal (tokenize s) p
        (hexStringToFloat32 ((tokenize s).getD (p + 1) "")) i.val := by
      rw [DecodeValues_positions ts s m h i, hcount, if_pos hi, hval]
    refine ⟨?_, hformula⟩
    intro hparse
    have hz : smallHexToInt ((tokenize s).getD (p + i.val + 4) "") = 0 := by
      unfold smallHexToInt
      rw [hparse]
      rfl
    rw [hformula]
    unfold posVal
    rw [hz]
    simp
  · intro p hp hlen i hi
    have hcount : velWriteCount (tokenize s) = blockIterCount (tokenize s) p := by
      simp only [velWriteCount, hp]
      rw [if_neg (by omega)]
    have hval : velValAt (tokenize s) i.val =
        velVal (tokenize s) p (hexStringToFloat32 ((tokenize s).getD (p + 1) "")) i.val := by
      simp only [velValAt, hp]
    have hformula : m.velocities i = velVal (tokenize s) p
        (hexStringToFloat32 ((tokenize s).getD (p + 1) "")) i.val := by
      rw [DecodeValues_velocities ts s m h i, hcount, if_pos hi, hval]
    refine ⟨?_, hformula⟩
    intro hparse
    have hz : smallHexToInt ((tokenize s).getD (p + i.val + 4) "") = 0 := by
      unfold smallHexToInt
      rw [hparse]
      rfl
    rw [hformula]
    unfold velVal signAdjust
    rw [hz]
    simp

theorem malformed_value_token_zero_witness :
    ∃ m, DecodeValues 0 malformedTokenFixture = Except.ok m ∧
      m.positions ⟨0, by decide⟩ = 0 ∧ m.positions ⟨1, by decide⟩ = 1 / 2 := by
  obtain ⟨m, hm⟩ : ∃ m, DecodeValues 0 malformedTokenFixture = Except.ok m := ⟨_, rfl⟩
  have hth := malformed_value_token_zero 0 malformedTokenFixture m hm
  refine ⟨m, hm, ?_, ?_⟩
  · exact (hth.2.1 0 (by with_unfolding_all decide) (by with_unfolding_all decide)
      ⟨0, by decide⟩ (by with_unfolding_all decide)).1 (by with_unfolding_all decide)
  · have h2 := (hth.2.1 0 (by with_unfolding_all decide) (by with_unfolding_all decide)
      ⟨1, by decide⟩ (by with_unfolding_all decide)).2
    rw [h2]
    with_unfolding_all decide

theorem handleConnectionError_state (e : String) (st : ServiceState) :
    (handleConnectionError e st).1.consecutiveErrors = st.consecutiveErrors + 1 ∧
    (handleConnectionError e st).1.lastErrorMsg = e := by
  by_cases h : st.consecutiveErrors + 1 > maxConsecutiveErrors
  · simp [handleConnectionError, updateStatus, h]
  · simp [handleConnectionError, updateStatus, h]

theorem handleConnectionError_effects (e : String) (st : ServiceState) :
    (handleConnectionError e st).2 =
      if st.consecutiveErrors + 1 > maxConsecutiveErrors then
        [TickEffect.statusPublished
          { status := "falha_comunicacao", lastError := e,
            errorCount := st.consecutiveErrors + 1 },
         TickEffect.slept]
      else [] := by
  by_cases h : st.consecutiveErrors + 1 > maxConsecutiveErrors
  · simp [handleConnectionError, updateStatus, h]
  · simp [handleConnectionError, updateStatus, h]

theorem runCommPhases_snoc (outs : List TickOutcome) (o : TickOutcome) (st : ServiceState) :
    runCommPhases (outs ++ [o]) st =
      ((commPhase o (runCommPhases outs st).1).1,
       (runCommPhases outs st).2 ++ (commPhase o (runCommPhases outs st).1).2) := by
  unfold runCommPhases
  rw [List.foldl_append]
  rfl

theorem runCommPhases_fail_counter (e : String) (k : ℕ) :
    (runCommPhases (List.replicate k (TickOutcome.commFail e)) initService).1.consecutiveErrors
      = k := by
  induction k with
  | zero => rfl
  | succ n ih =>
    rw [List.replicate_succ', runCommPhases_snoc]
    show (commPhase (TickOutcome.commFail e) _).1.consecutiveErrors = n + 1
    simp only [commPhase]
    rw [(handleConnectionError_state e _).1, ih]

theorem runCommPhases_fail_effects (e : String) (k : ℕ) :
    (runCommPhases (List.replicate k (TickOutcome.commFail e)) initService).2 =
      (List.range k).flatMap (fun j =>
        if j + 1 > maxConsecutiveErrors then
          [TickEffect.statusPublished
            { status := "falha_comunicacao", lastError := e, errorCount := j + 1 },
           TickEffect.slept]
        else []) := by
  induction k with
  | zero => rfl
  | succ n ih =>
    rw [List.replicate_succ', runCommPhases_snoc, List.range_succ, List.flatMap_append]
    show (runCommPhases _ _).2 ++ (commPhase (TickOutcome.commFail e) _).2 = _
    rw [ih]
    congr 1
    simp only [commPhase, List.flatMap_cons, List.flatMap_nil, List.append_nil]
    rw [handleConnectionError_effects, runCommPhases_fail_counter]

theorem tickCommSuccess_eq (st : ServiceState) :
    commPhase TickOutcome.commOk st =
      if st.consecutiveErrors > 0 then
        ({ st with
            consecutiveErrors := 0
            status := { status := "ok", lastError := "", errorCount := 0 } },
         [TickEffect.statusPublished { status := "ok", lastError := "", errorCount := 0 }])
      else (st, []) := by
  by_cases h : st.consecutiveErrors > 0
  · simp [commPhase, tickCommSuccess, updateStatus, h]
  · simp [commPhase, tickCommSuccess, updateStatus, h]

/-- C4: with MaxConsecutiveErrors = 5, every failed tick increments the
consecutive-error counter and records the last-error string; status
"falha_comunicacao" is published (and the reconnect sleep follows) exactly
when the incremented counter exceeds 5 — so a run of k consecutive failures
from a fresh service publishes nothing for k ≤ 5 and publishes the first
comm-failure status, carrying errorCount = 6, on the sixth failure; the first
successful read after one or more failures resets the counter to 0 and
publishes status "ok" exactly once. -/
theorem comm_failure_threshold :
    (∀ (st : ServiceState) (e : String),
      (handleConnectionError e st).1.consecutiveErrors = st.consecutiveErrors + 1 ∧
      (handleConnectionError e st).1.lastErrorMsg = e ∧
      (handleConnectionError e st).2 =
        (if st.consecutiveErrors + 1 > maxConsecutiveErrors then
          [TickEffect.statusPublished
            { status := "falha_comunicacao", lastError := e,
              errorCount := st.consecutiveErrors + 1 },
           TickEffect.slept]
        else [])) ∧
    (∀ (e : String) (k : ℕ),
      (runCommPhases (List.replicate k (TickOutcome.commFail e)) initService).2 =
        (List.range k).flatMap (fun j =>
          if j + 1 > maxConsecutiveErrors then
            [TickEffect.statusPublished
              { status := "falha_comunicacao", lastError := e, errorCount := j + 1 },
             TickEffect.slept]
          else [])) ∧
    (∀ e : String,
      (runCommPhases (List.replicate 5 (TickOutcome.commFail e)) initService).2 = []) ∧
    (∀ e : String,
      (runCommPhases (List.replicate 6 (TickOutcome.commFail e)) initService).2 =
        [TickEffect.statusPublished
          { status := "falha_comunicacao", lastError := e, errorCount := 6 },
         TickEffect.slept]) ∧
    (∀ st : ServiceState,
      commPhase TickOutcome.commOk st =
        (if st.consecutiveErrors > 0 then
          ({ st with
              consecutiveErrors := 0
              status := { status := "ok", lastError := "", errorCount := 0 } },
           [TickEffect.statusPublished { status := "ok", lastError := "", errorCount := 0 }])
        else (st, []))) := by
  refine ⟨?_, runCommPhases_fail_effects, ?_, ?_, tickCommSuccess_eq⟩
  · intro st e
    exact ⟨(handleConnectionError_state e st).1, (handleConnectionError_state e st).2,
      handleConnectionError_effects e st⟩
  · intro e
    rw [runCommPhases_fail_effects]
    rfl
  · intro e
    rw [runCommPhases_fail_effects]
    rfl

/-- C8 counterexample: a tick whose frame has all seven positions zero only
tags the frame as "obstruido" — the tick's status-broadcast list is empty,
and the subsequent non-zero frame (status "ok") again broadcasts no status
change, contradicting the claimed status broadcasts. -/
theorem obstruction_no_status_broadcast :
    (processDecodedFrame (fun _ => 0) (initMetrics 0)).2.1.status = "obstruido" ∧
    (processDecodedFrame (fun _ => 0) (initMetrics 0)).2.2.statusBroadcasts = [] ∧
    (processDecodedFrame (fun _ => 0) (posFrame 1)).2.1.status = "ok" ∧
    (processDecodedFrame (fun _ => 0) (posFrame 1)).2.2.statusBroadcasts = [] := by
  refine ⟨?_, rfl, ?_, rfl⟩
  · with_unfolding_all decide
  · with_unfolding_all decide

/-- C8 (amended): the Acquisition Loop (not the decoder) overrides the
frame's status to "obstruido" exactly when all seven positions are zero, and
a subsequent frame with a non-zero position carries the decoder's "ok" again;
but the overridden status travels only inside the metrics broadcast — the
decoded-frame phase issues no status-record broadcast at all. -/
theorem obstruction_tags_frame_only (lastVelocities : Fin 7 → ℚ) (m : RadarMetrics) :
    ((processDecodedFrame lastVelocities m).2.1.status =
      if ∀ i : Fin 7, m.positions i = 0 then "obstruido" else m.status) ∧
    (processDecodedFrame lastVelocities m).2.2.statusBroadcasts = [] ∧
    (processDecodedFrame lastVelocities m).2.2.metricsBroadcast =
      some (processDecodedFrame lastVelocities m).2.1 := by
  refine ⟨?_, rfl, rfl⟩
  by_cases h : ∀ i : Fin 7, m.positions i = 0
  · simp [processDecodedFrame, detectVelocityChanges, h]
  · simp [processDecodedFrame, detectVelocityChanges, h]

/-- C9 counterexample: the well-formed inbound message of type "foo" (not a
recognized command) is forwarded to the hub, which merely logs it; no error
message — in particular none with code invalid_format — is sent back to the
subscriber. -/
theorem unknown_type_no_error :
    serverHandleInbound (some { type := "foo", id := "1" }) =
      [ClientEffect.forwardedToHub "foo", ClientEffect.hubLoggedUnknown "foo"] ∧
    ClientEffect.sentError "invalid_format" "Formato de mensagem inválido" ∉
      serverHandleInbound (some { type := "foo", id := "1" }) := by
  with_unfolding_all decide

/-- C9 (amended): the invalid_format error is sent exactly for messages that
fail to decode; a well-formed message whose type is none of ping, get_history
and get_status is forwarded to the hub, which logs an unknown-command warning
and sends nothing back to the subscriber. -/
theorem inbound_message_routing :
    serverHandleInbound none =
      [ClientEffect.sentError "invalid_format" "Formato de mensagem inválido"] ∧
    (∀ cmd : CommandMessage, cmd.type ≠ "ping" → cmd.type ≠ "get_history" →
      cmd.type ≠ "get_status" →
      serverHandleInbound (some cmd) =
        [ClientEffect.forwardedToHub cmd.type, ClientEffect.hubLoggedUnknown cmd.type]) ∧
    (∀ cmd : CommandMessage, cmd.type = "ping" →
      serverHandleInbound (some cmd) = [ClientEffect.sentPong]) ∧
    (∀ cmd : CommandMessage, cmd.type = "get_history" →
      serverHandleInbound (some cmd) =
        [ClientEffect.forwardedToHub "get_history", ClientEffect.hubHandled "get_history"]) ∧
    (∀ cmd : CommandMessage, cmd.type = "get_status" →
      serverHandleInbound (some cmd) =
        [ClientEffect.forwardedToHub "get_status", ClientEffect.hubHandled "get_status"]) := by
  refine ⟨rfl, ?_, ?_, ?_, ?_⟩
  · intro cmd h1 h2 h3
    simp [serverHandleInbound, processIncomingMessage, handleClientCommand, h1, h2, h3]
  · intro cmd h1
    simp [serverHandleInbound, processIncomingMessage, h1]
  · intro cmd h1
    simp [serverHandleInbound, processIncomingMessage, handleClientCommand, h1]
  · intro cmd h1
    simp [serverHandleInbound, processIncomingMessage, handleClientCommand, h1]

theorem inbound_message_routing_witness :
    ({ type := "foo", id := "1" } : CommandMessage).type ≠ "ping" ∧
    serverHandleInbound (some { type := "foo", id := "1" }) =
      [ClientEffect.forwardedToHub "foo", ClientEffect.hubLoggedUnknown "foo"] :=
  ⟨by decide,
    (inbound_message_routing.2.1 { type := "foo", id := "1" }
      (by decide) (by decide) (by decide))⟩

theorem zranked_length (z : ZSet α) : (zranked z).length = z.length :=
  (List.perm_insertionSort _ z).length_eq

theorem zremLowest_length_le (keep : ℕ) (z : ZSet α) :
    (zremLowest keep z).length ≤ keep := by
  unfold zremLowest
  rw [List.length_drop, zranked_length]
  omega

theorem writeHistory_length_le (v : ℚ) (ts : ℤ) (z : ZSet ℚ) :
    (writeHistory v ts z).length ≤ historyCap :=
  zremLowest_length_le historyCap _

theorem writeOneChange_bound (c : VelocityChange) (st : ChangeStoreState)
    (h1 : ∀ n, (st.velChanges n).length ≤ maxVelocityHistorySize) :
    (∀ n, ((writeOneChange c st).velChanges n).length ≤ maxVelocityHistorySize) ∧
    (writeOneChange c st).allChanges.length ≤ maxVelocityHistorySize := by
  constructor
  · intro n
    show (Function.update st.velChanges (c.index + 1) _ n).length ≤ _
    rw [Function.update_apply]
    by_cases hn : n = c.index + 1
    · rw [if_pos hn]
      exact zremLowest_length_le _ _
    · rw [if_neg hn]
      exact h1 n
  · exact zremLowest_length_le _ _

theorem writeChangesList_bound (cs : List VelocityChange) :
    ∀ st : ChangeStoreState,
      (∀ n, (st.velChanges n).length ≤ maxVelocityHistorySize) →
      st.allChanges.length ≤ maxVelocityHistorySize →
      (∀ n, ((cs.foldl (fun s c => writeOneChange c s) st).velChanges n).length ≤
        maxVelocityHistorySize) ∧
      (cs.foldl (fun s c => writeOneChange c s) st).allChanges.length ≤
        maxVelocityHistorySize := by
  induction cs with
  | nil =>
    intro st h1 h2
    exact ⟨h1, h2⟩
  | cons c cs ih =>
    intro st h1 h2
    rw [List.foldl_cons]
    exact ih _ (writeOneChange_bound c st h1).1 (writeOneChange_bound c st h1).2

set_option maxRecDepth 100000 in
theorem runWriteMetrics_posHistory (frames : List RadarMetrics) (st : StoreState) (i : Fin 7) :
    (runWriteMetrics frames st).posHistory i =
      (frames.map (fun f => (f.positions i, f.timestamp))).foldl
        (fun z w => zremLowest historyCap (zadd w.1 w.2 z)) (st.posHistory i) := by
  induction frames generalizing st with
  | nil => rfl
  | cons f fs ih =>
    rw [List.map_cons, List.foldl_cons]
    show (runWriteMetrics fs (WriteMetrics f st)).posHistory i = _
    rw [ih (WriteMetrics f st)]
    rfl

set_option maxRecDepth 100000 in
theorem runWriteMetrics_velHistory (frames : List RadarMetrics) (st : StoreState) (i : Fin 7) :
    (runWriteMetrics frames st).velHistory i =
      (frames.map (fun f => (f.velocities i, f.timestamp))).foldl
        (fun z w => zremLowest historyCap (zadd w.1 w.2 z)) (st.velHistory i) := by
  induction frames generalizing st with
  | nil => rfl
  | cons f fs ih =>
    rw [List.map_cons, List.foldl_cons]
    show (runWriteMetrics fs (WriteMetrics f st)).velHistory i = _
    rw [ih (WriteMetrics f st)]
    rfl

theorem ringRun_snoc [DecidableEq α] (H : ℕ) (ws : List (α × ℤ)) (w : α × ℤ) :
    ringRun H (ws ++ [w]) = zremLowest H (zadd w.1 w.2 (ringRun H ws)) := by
  unfold ringRun
  rw [List.foldl_append]
  rfl

theorem zadd_of_not_mem [DecidableEq α] (m : α) (sc : ℤ) (z : ZSet α)
    (h : ∀ p ∈ z, p.1 ≠ m) : zadd m sc z = z ++ [(m, sc)] := by
  unfold zadd
  rw [if_neg]
  intro hany
  rw [List.any_eq_true] at hany
  obtain ⟨p, hp, hpm⟩ := hany
  exact h p hp (by simpa using hpm)

theorem ringRun_eq_drop [DecidableEq α] (H : ℕ) (ws : List (α × ℤ))
    (hnodup : (ws.map Prod.fst).Nodup)
    (hmono : (ws.map Prod.snd).Pairwise (fun a b : ℤ => a < b)) :
    ringRun H ws = ws.drop (ws.length - H) := by
  induction ws using List.reverseRecOn with
  | nil => simp [ringRun]
  | append_singleton ws w ih =>
    rw [List.map_append] at hnodup hmono
    have hnodup' := List.Nodup.of_append_left hnodup
    have hw_not_mem : w.1 ∉ ws.map Prod.fst := by
      rcases List.nodup_append.mp hnodup with ⟨-, -, hdisj⟩
      intro hmem
      exact hdisj hmem (by simp)
    have hmono' := (List.pairwise_append.mp hmono).1
    have hlt : ∀ s ∈ ws.map Prod.snd, s < w.2 := by
      intro s hs
      exact (List.pairwise_append.mp hmono).2.2 s hs w.2 (by simp)
    rw [ringRun_snoc, ih hnodup' hmono']
    have hnm : ∀ p ∈ ws.drop (ws.length - H), p.1 ≠ w.1 := by
      intro p hp hpe
      exact hw_not_mem (hpe ▸ List.mem_map_of_mem Prod.fst (List.mem_of_mem_drop hp))
    rw [zadd_of_not_mem w.1 w.2 _ hnm, Prod.mk.eta]
    have hsorted : List.Pairwise (fun a b : α × ℤ => a.2 ≤ b.2)
        (ws.drop (ws.length - H) ++ [w]) := by
      rw [List.pairwise_append]
      refine ⟨?_, List.pairwise_singleton _ _, ?_⟩
      · have hpw : List.Pairwise (fun a b : α × ℤ => a.2 < b.2) ws :=
          List.pairwise_map.mp hmono'
        exact (hpw.sublist (List.drop_sublist _ _)).imp (fun h => le_of_lt h)
      · intro a ha b hb
        rw [List.mem_singleton] at hb
        subst hb
        exact le_of_lt (hlt a.2 (List.mem_map_of_mem Prod.snd (List.mem_of_mem_drop ha)))
    unfold zremLowest zranked
    rw [List.Sorted.insertionSort_eq hsorted]
    rw [List.drop_append_eq_append_drop, List.drop_append_eq_append_drop, List.drop_drop]
    congr 1
    · congr 1
      simp only [List.length_append, List.length_drop, List.length_singleton]
      omega
    · congr 1
      simp only [List.length_append, List.length_drop, List.length_singleton]
      omega

set_option maxRecDepth 100000 in
/-- C5 counterexample: two WriteMetrics pipelines whose frames carry the same
value (zero) on position channel 0 collapse into a single sorted-set member —
after k = 2 writes the ring holds 1 entry, not min(2, 1000) = 2, because the
members of a sorted set are unique and ZAdd of an existing member only
updates its score. -/
theorem history_ring_collapses_duplicates :
    ((WriteMetrics (initMetrics 200) (WriteMetrics (initMetrics 100) emptyStore)).posHistory
      ⟨0, by decide⟩).length = 1 ∧ min 2 historyCap = 2 := by
  constructor
  · with_unfolding_all decide
  · rfl

set_option maxRecDepth 100000 in
/-- C5 (amended): every WriteMetrics pipeline ZAdds one scored member into
each of the fourteen per-channel histories and trims each to its 1000
highest-scored entries, and every WriteVelocityChanges pipeline trims the
per-channel and global change indices to their 100 highest-scored entries, so
no ring ever exceeds its bound; but sorted-set members are unique, so a
written value equal to an existing member merely refreshes that member's
score, and a ring holds the most recent min(k, H) entries in insertion order
only when the written members are pairwise distinct and the timestamps
increase. -/
theorem bounded_ring_semantics :
    (∀ (m : RadarMetrics) (st : StoreState) (i : Fin 7),
      ((WriteMetrics m st).posHistory i).length ≤ historyCap ∧
      ((WriteMetrics m st).velHistory i).length ≤ historyCap) ∧
    (∀ (cs : List VelocityChange) (st : ChangeStoreState),
      (∀ n, (st.velChanges n).length ≤ maxVelocityHistorySize) →
      st.allChanges.length ≤ maxVelocityHistorySize →
      (∀ n, ((WriteVelocityChanges cs st).velChanges n).length ≤ maxVelocityHistorySize) ∧
      (WriteVelocityChanges cs st).allChanges.length ≤ maxVelocityHistorySize) ∧
    (∀ (frames : List RadarMetrics) (i : Fin 7),
      ((frames.map (fun f => (f.positions i, f.timestamp))).map Prod.fst).Nodup →
      ((frames.map (fun f => (f.positions i, f.timestamp))).map Prod.snd).Pairwise
        (fun a b : ℤ => a < b) →
      (runWriteMetrics frames emptyStore).posHistory i =
        (frames.map (fun f => (f.positions i, f.timestamp))).drop
          ((frames.map (fun f => (f.positions i, f.timestamp))).length - historyCap)) ∧
    (∀ (frames : List RadarMetrics) (i : Fin 7),
      ((frames.map (fun f => (f.velocities i, f.timestamp))).map Prod.fst).Nodup →
      ((frames.map (fun f => (f.velocities i, f.timestamp))).map Prod.snd).Pairwise
        (fun a b : ℤ => a < b) →
      (runWriteMetrics frames emptyStore).velHistory i =
        (frames.map (fun f => (f.velocities i, f.timestamp))).drop
          ((frames.map (fun f => (f.velocities i, f.timestamp))).length - historyCap)) := by
  refine ⟨?_, ?_, ?_, ?_⟩
  · intro m st i
    exact ⟨writeHistory_length_le _ _ _, writeHistory_length_le _ _ _⟩
  · intro cs st h1 h2
    unfold WriteVelocityChanges
    split
    · exact ⟨h1, h2⟩
    · exact writeChangesList_bound cs st h1 h2
  · intro frames i h1 h2
    rw [runWriteMetrics_posHistory]
    exact ringRun_eq_drop historyCap _ h1 h2
  · intro frames i h1 h2
    rw [runWriteMetrics_velHistory]
    exact ringRun_eq_drop historyCap _ h1 h2

set_option maxRecDepth 100000 in
theorem bounded_ring_semantics_witness :
    ((([posFrame 100, initMetrics 200].map
        (fun f => (f.positions ⟨0, by decide⟩, f.timestamp))).map Prod.fst).Nodup) ∧
    ((([posFrame 100, initMetrics 200].map
        (fun f => (f.positions ⟨0, by decide⟩, f.timestamp))).map Prod.snd).Pairwise
        (fun a b : ℤ => a < b)) ∧
    (runWriteMetrics [posFrame 100, initMetrics 200] emptyStore).posHistory ⟨0, by decide⟩ =
      ([posFrame 100, initMetrics 200].map
        (fun f => (f.positions ⟨0, by decide⟩, f.timestamp))).drop
        (([posFrame 100, initMetrics 200].map
          (fun f => (f.positions ⟨0, by decide⟩, f.timestamp))).length - historyCap) := by
  refine ⟨?_, ?_, ?_⟩
  · with_unfolding_all decide
  · with_unfolding_all decide
  · exact bounded_ring_semantics.2.2.1 [posFrame 100, initMetrics 200] ⟨0, by decide⟩
      (by with_unfolding_all decide) (by with_unfolding_all decide)

/-- C6 counterexample: three calls at t = 0, 40, 80 ms with channel-0
velocities 0, 0.04, 0.08.  The third call is suppressed by the code (only 40
ms since the previous call, per-call delta 0.04), although 80 ms have elapsed
since the previous actual broadcast at t = 0 and the velocity has moved by
0.08 > 0.05 since that broadcast — the claim's suppression condition,
measured from the previous broadcast, requires this frame to be sent. -/
theorem coalescing_ignores_suppressed_broadcasts :
    (runBroadcastMetrics
      [(0, velFrame 0 0), (40, velFrame 40 (1 / 25)), (80, velFrame 80 (2 / 25))]).2 =
      [(0, true), (40, false), (80, false)] ∧
    ¬ ((80 : ℤ) - 0 < 50) ∧
    (1 : ℚ) / 20 < |(velFrame 80 (2 / 25)).velocities ⟨0, by decide⟩ -
      (velFrame 0 0).velocities ⟨0, by decide⟩| := by
  refine ⟨?_, by omega, ?_⟩
  · with_unfolding_all decide
  · with_unfolding_all decide

/-- C6 (amended): BroadcastMetrics suppresses the broadcast if and only if a
previous call exists, fewer than 50 ms have elapsed since that previous CALL
(sent or suppressed), and no channel's velocity has moved by more than 0.05
relative to the frame of that previous call; the stored last frame and time
are overwritten on every call; a non-suppressed call enqueues a message
carrying the frame's positions, velocities and status. -/
theorem BroadcastMetrics_spec (now : ℤ) (m : RadarMetrics) (st : HubMetricsState) :
    (BroadcastMetrics now m st).1 = { lastMetrics := some m, lastMetricsTime := now } ∧
    ((BroadcastMetrics now m st).2 = none ↔
      ∃ last, st.lastMetrics = some last ∧ now - st.lastMetricsTime < 50 ∧
        ∀ i : Fin 7, |m.velocities i - last.velocities i| ≤ 1 / 20) ∧
    (∀ msg, (BroadcastMetrics now m st).2 = some msg →
      msg.positions = m.positions ∧ msg.velocities = m.velocities ∧ msg.status = m.status) := by
  refine ⟨rfl, ?_, ?_⟩
  · cases hl : st.lastMetrics with
    | none =>
      have h2eq : (BroadcastMetrics now m st).2 =
          some { positions := m.positions, velocities := m.velocities, status := m.status } := by
        unfold BroadcastMetrics
        rw [hl]
        rfl
      rw [h2eq]
      constructor
      · intro hc
        exact Option.noConfusion hc
      · rintro ⟨last', hlast', -, -⟩
        exact Option.noConfusion hlast'
    | some last =>
      have h2eq : (BroadcastMetrics now m st).2 =
          (if (if now - st.lastMetricsTime < 50 then
              decide (∃ i : Fin 7, (1 : ℚ) / 20 < |m.velocities i - last.velocities i|)
            else true) = true then
            some { positions := m.positions, velocities := m.velocities, status := m.status }
          else none) := by
        unfold BroadcastMetrics
        rw [hl]
      rw [h2eq]
      by_cases h50 : now - st.lastMetricsTime < 50
      · rw [if_pos h50]
        by_cases hsig : ∃ i : Fin 7, (1 : ℚ) / 20 < |m.velocities i - last.velocities i|
        · rw [decide_eq_true hsig, if_pos rfl]
          constructor
          · intro hc
            exact Option.noConfusion hc
          · rintro ⟨last', hlast', -, hall⟩
            injection hlast' with he
            subst he
            obtain ⟨i, hi⟩ := hsig
            exact absurd (hall i) (not_le.mpr hi)
        · rw [decide_eq_false hsig, if_neg Bool.false_ne_true]
          constructor
          · intro _
            refine ⟨last, rfl, h50, ?_⟩
            intro i
            by_contra hgt
            exact hsig ⟨i, not_le.mp hgt⟩
          · intro _
            rfl
      · rw [if_neg h50, if_pos rfl]
        constructor
        · intro hc
          exact Option.noConfusion hc
        · rintro ⟨last', -, h50', -⟩
          exact absurd h50' h50
  · intro msg hmsg
    have h2eq : (BroadcastMetrics now m st).2 =
        (if (match st.lastMetrics with
            | none => true
            | some last =>
              if now - st.lastMetricsTime < 50 then
                decide (∃ i : Fin 7, (1 : ℚ) / 20 < |m.velocities i - last.velocities i|)
              else true) = true then
          some { positions := m.positions, velocities := m.velocities, status := m.status }
        else none) := rfl
    rw [h2eq] at hmsg
    revert hmsg
    generalize (match st.lastMetrics with
        | none => true
        | some last =>
          if now - st.lastMetricsTime < 50 then
            decide (∃ i : Fin 7, (1 : ℚ) / 20 < |m.velocities i - last.velocities i|)
          else true) = b
    cases b with
    | false =>
      intro hmsg
      simp at hmsg
    | true =>
      intro hmsg
      rw [if_pos rfl] at hmsg
      injection hmsg with he
      rw [← he]
      exact ⟨rfl, rfl, rfl⟩

theorem BroadcastMetrics_spec_witness :
    ∃ msg, (BroadcastMetrics 0 (velFrame 0 0)
        { lastMetrics := none, lastMetricsTime := 0 }).2 = some msg ∧
      msg.status = (velFrame 0 0).status := by
  obtain ⟨msg, hmsg⟩ : ∃ msg, (BroadcastMetrics 0 (velFrame 0 0)
      { lastMetrics := none, lastMetricsTime := 0 }).2 = some msg := ⟨_, rfl⟩
  exact ⟨msg, hmsg,
    ((BroadcastMetrics_spec 0 (velFrame 0 0)
      { lastMetrics := none, lastMetricsTime := 0 }).2.2 msg hmsg).2.2⟩

set_option maxRecDepth 100000 in
/-- C7: at the failing input — a subscriber with a full 256-message outbound
queue alongside a healthy subscriber, and two queued broadcasts — the
broadcast case enqueues the message only into the queue with spare capacity
and marks the full subscriber dead, as claimed; but the hub goroutine then
parks on the send to the unbuffered h.unregister channel whose only receiver
is its own select loop: the reached state has no successor step, the dead
subscriber is never actually unregistered, and the second broadcast is never
delivered to the healthy subscriber. -/
theorem full_queue_eviction_deadlock :
    hubEnabledSteps hubStart = [hubStuck] ∧
    hubEnabledSteps hubStuck = [] ∧
    hubStuck.pendingBroadcasts = ["b"] ∧
    hubStuck.registry = [{ freshClient with send := ["a"] }, fullClient] := by
  refine ⟨?_, rfl, rfl, rfl⟩
  with_unfolding_all decide

end ColetaRadar
